import Mathlib

/-!
Verification of the inventory projection engine (`InventoryProjectionService`)
of the supply-chain planning application.

Shallow embedding conventions:
* Calendar dates are integer day numbers since the Unix epoch (1970-01-01);
  the engine only compares dates for equality, orders them, measures absolute
  distances between them, and extracts the calendar month, all of which are
  preserved by this encoding.  `civilMonth` recovers the Gregorian (UTC)
  month 1..12 of a day number, as the runtime `Date.getMonth() + 1` does.
* JS numbers are embedded as rationals (`ℚ`); the one genuinely irrational
  computation (`Math.sqrt` inside the safety-stock estimate) lives in `ℝ`.
* Nullable numeric fields are `Option ℚ`.
-/

namespace DemoLegacy

/-- Gregorian month (1..12) of a day number counted from 1970-01-01,
matching what `new Date(...).getMonth() + 1` yields for a UTC date.
Standard civil-from-days computation. -/
def civilMonth (z : ℤ) : ℕ :=
  let days := z + 719468
  let era := Int.fdiv days 146097
  let doe := days - era * 146097
  let yoe := (doe - doe / 1460 + doe / 36524 - doe / 146096) / 365
  let doy := doe - (365 * yoe + yoe / 4 - yoe / 100)
  let mp := (5 * doy + 2) / 153
  (mp + if mp < 10 then 3 else -9).toNat

/-- Row of the `inventory_series` table (per-series identity). -/
structure InventorySeries where
  id : ℕ
  product_id : String
  location_id : String
deriving DecidableEq

/-- Row of `inventory_series_data`: one inventory observation.
`value` is nullable in the database. -/
structure InventorySeriesData where
  series_id : ℕ
  period_date : ℤ
  value : Option ℚ
deriving DecidableEq

/-- Row of `forecast_with_fitted_history` (the `ForecastData` interface):
`postdate` is the forecast date, `forecast` and `actual` are nullable. -/
structure ForecastData where
  product_id : String
  location_id : String
  postdate : ℤ
  forecast : Option ℚ
  actual : Option ℚ
deriving DecidableEq

/-- The four inventory health states of the `InventoryProjection` interface. -/
inductive InventoryStatus where
  | optimal
  | warning
  | critical
  | stockout
deriving DecidableEq

/-- One emitted projection day (the `InventoryProjection` interface).
All purely rational quantities stay in `ℚ`; the safety stock and reorder
point involve square roots and live in `ℝ`. -/
structure InventoryProjection where
  date : ℤ
  projected_inventory : ℚ
  forecast_demand : ℚ
  current_stock : ℚ
  cumulative_demand : ℚ
  reorder_point : ℝ
  safety_stock : ℝ
  status : InventoryStatus

/-- One element of the result of `calculateProjections`. -/
structure ProjectionResult where
  product_id : String
  location_id : String
  warehouse_id : ℕ
  projections : List InventoryProjection

namespace InventoryProjectionService

/-- `getSeasonalAdjustment`'s fixed month-keyed table (`seasonalFactors`);
the source falls back to `1.0` for a key outside 1..12. -/
def seasonalFactors (month : ℕ) : ℚ :=
  match month with
  | 1 => 0.9
  | 2 => 0.95
  | 3 => 1.0
  | 4 => 1.05
  | 5 => 1.1
  | 6 => 1.15
  | 7 => 1.2
  | 8 => 1.15
  | 9 => 1.05
  | 10 => 1.1
  | 11 => 1.25
  | 12 => 1.3
  | _ => 1.0

/-- `getSeasonalAdjustment(date)`: look the calendar month of `date` up in
the fixed seasonal table. -/
def getSeasonalAdjustment (date : ℤ) : ℚ :=
  seasonalFactors (civilMonth date)

/-- The `sortedForecasts` list of `getDailyDemand`: the forecasts with a
non-null value, sorted ascending by date (JS `Array.sort` is stable). -/
def sortedForecastsOf (forecasts : List ForecastData) : List ForecastData :=
  (forecasts.filter (fun f => f.forecast.isSome)).mergeSort
    (fun a b => a.postdate ≤ b.postdate)

/-- The reduce callback of `getDailyDemand`'s closest search:
`currDiff < prevDiff ? curr : prev` — a strictly closer entry replaces the
accumulator, so an earlier entry wins ties. -/
def pickCloser (date : ℤ) (prev curr : ForecastData) : ForecastData :=
  if |curr.postdate - date| < |prev.postdate - date| then curr else prev

/-- The fallback branch of `getDailyDemand`: reduce the sorted non-null
forecasts to the entry closest in absolute time distance to `date`; return
its value, `0` when no non-null forecast exists (`closest.forecast || 0`). -/
def closestDemand (forecasts : List ForecastData) (date : ℤ) : ℚ :=
  match sortedForecastsOf forecasts with
  | [] => 0
  | first :: rest =>
    let closest := rest.foldl (pickCloser date) first
    closest.forecast.getD 0

/-- `getDailyDemand(forecasts, date)`: `0` for an empty forecast list; else
the value of the first forecast whose date equals `date`, provided that
value is truthy (non-null and non-zero — the source tests
`exactMatch && exactMatch.forecast`); otherwise the closest-by-distance
fallback. -/
def getDailyDemand (forecasts : List ForecastData) (date : ℤ) : ℚ :=
  if forecasts.isEmpty then 0
  else
    match forecasts.find? (fun f => f.postdate == date) with
    | some exactMatch =>
      match exactMatch.forecast with
      | some v => if v ≠ 0 then v else closestDemand forecasts date
      | none => closestDemand forecasts date
    | none => closestDemand forecasts date

/-- `calculateEnhancedSafetyStock(series, forecasts)`: `10` when there are
no forecast points; otherwise `max(Z · stdDev · sqrt(leadTime / 7), 10)`
with `Z = 1.65`, `leadTime = 14`, and `stdDev` the population standard
deviation of the forecast values (nulls as 0). -/
noncomputable def calculateEnhancedSafetyStock
    (forecasts : List ForecastData) : ℝ :=
  if forecasts.isEmpty then 10
  else
    let demands := forecasts.map (fun f => f.forecast.getD 0)
    let avgDemand : ℚ := demands.sum / demands.length
    let variance : ℚ :=
      (demands.map (fun d => (d - avgDemand) ^ 2)).sum / demands.length
    let stdDev : ℝ := Real.sqrt (variance : ℝ)
    max (1.65 * stdDev * Real.sqrt ((14 : ℝ) / 7)) 10

open Classical in
/-- `determineEnhancedInventoryStatus(projectedInventory, enhancedSafetyStock,
reorderPoint)`; the reorder-point argument is accepted but unused, as in the
source. -/
noncomputable def determineEnhancedInventoryStatus
    (projectedInventory : ℝ) (enhancedSafetyStock : ℝ) (_reorderPoint : ℝ) :
    InventoryStatus :=
  if projectedInventory ≤ 0 then .stockout
  else if projectedInventory ≤ enhancedSafetyStock * 0.5 then .critical
  else if projectedInventory ≤ enhancedSafetyStock then .warning
  else .optimal

/-- Baseline ("current") inventory: sum of all observation values for the
series, a null value counting as 0 (`reduce((sum, item) => sum + (item.value
|| 0), 0)`). -/
def currentInventoryOf (inventoryData : List InventorySeriesData) : ℚ :=
  inventoryData.foldl (fun sum item => sum + item.value.getD 0) 0

/-- Seasonally adjusted demand of projection day `day`
(`baseDailyDemand * seasonalAdjustment` at date `startDate + day`). -/
def adjustedDemand (forecasts : List ForecastData) (startDate : ℤ)
    (day : ℕ) : ℚ :=
  getDailyDemand forecasts (startDate + day) *
    getSeasonalAdjustment (startDate + day)

/-- The running total `cumulativeDemand` after the loop body of day `day`
(the loop adds each day's adjusted demand in turn, starting at day 0). -/
def cumulativeDemand (forecasts : List ForecastData) (startDate : ℤ) :
    ℕ → ℚ
  | 0 => adjustedDemand forecasts startDate 0
  | d + 1 => cumulativeDemand forecasts startDate d +
      adjustedDemand forecasts startDate (d + 1)

open Classical in
/-- The loop body of `calculateInventoryTimeline` for day `day`: projected
inventory is the baseline minus cumulative demand; when the day is positive
and that value is at or below the reorder point, a replenishment up to
`maxCapacity = currentInventory * 2` is added if positive; the emitted
`projected_inventory` is floored at 0 while the status is classified on the
unfloored value. -/
noncomputable def projectionForDay (currentInventory : ℚ)
    (enhancedSafetyStock : ℝ) (forecasts : List ForecastData)
    (startDate : ℤ) (day : ℕ) : InventoryProjection :=
  let currentDate : ℤ := startDate + day
  let adjusted : ℚ := adjustedDemand forecasts startDate day
  let cumDemand : ℚ := cumulativeDemand forecasts startDate day
  let reorderPoint : ℝ := enhancedSafetyStock * 1.5
  let preInventory : ℚ := currentInventory - cumDemand
  let projectedInventory : ℚ :=
    if (preInventory : ℝ) ≤ reorderPoint ∧ 0 < day then
      let replenishmentQuantity := currentInventory * 2 - preInventory
      if 0 < replenishmentQuantity then preInventory + replenishmentQuantity
      else preInventory
    else preInventory
  { date := currentDate
    projected_inventory := max 0 projectedInventory
    forecast_demand := adjusted
    current_stock := currentInventory
    cumulative_demand := cumDemand
    reorder_point := reorderPoint
    safety_stock := enhancedSafetyStock
    status := determineEnhancedInventoryStatus (projectedInventory : ℝ)
      enhancedSafetyStock reorderPoint }

/-- `calculateInventoryTimeline(series, inventoryData, forecasts,
projectionDays)`: one projection per day `0..projectionDays` inclusive,
with the baseline inventory and the enhanced safety stock computed once
before the loop.  The `series` argument is unused by the source body. -/
noncomputable def calculateInventoryTimeline
    (inventoryData : List InventorySeriesData)
    (forecasts : List ForecastData) (projectionDays : ℕ) (startDate : ℤ) :
    List InventoryProjection :=
  let currentInventory := currentInventoryOf inventoryData
  let enhancedSafetyStock := calculateEnhancedSafetyStock forecasts
  (List.range (projectionDays + 1)).map
    (projectionForDay currentInventory enhancedSafetyStock forecasts startDate)

/-- The `inventorySeries` query result of `calculateProjections`: all
series rows, restricted by the optional `eq` filters of the request. -/
def matchingSeries (allSeries : List InventorySeries)
    (pProduct pLocation : Option String) : List InventorySeries :=
  allSeries.filter (fun s =>
    (match pProduct with | some p => s.product_id == p | none => true) &&
    (match pLocation with | some l => s.location_id == l | none => true))

/-- The `forecastData` query result of `calculateProjections`: forecast
rows at or after today (`gte('postdate', today)`), restricted by the
optional `eq` filters of the request. -/
def matchingForecasts (allForecasts : List ForecastData)
    (pProduct pLocation : Option String) (today : ℤ) : List ForecastData :=
  allForecasts.filter (fun f =>
    decide (today ≤ f.postdate) &&
    (match pProduct with | some p => f.product_id == p | none => true) &&
    (match pLocation with | some l => f.location_id == l | none => true))

/-- `params.projection_days || 90`, with its JS falsiness: an explicit 0
also falls back to 90. -/
def effectiveProjectionDays (pProjectionDays : Option ℕ) : ℕ :=
  match pProjectionDays with
  | some k => if k == 0 then 90 else k
  | none => 90

/-- `calculateProjections(params)`, after the database reads: the three
fetched row sets become list arguments and the query filters become list
filters. Returns `[]` when no inventory series match the request;
otherwise runs the timeline per series over its own observation rows and
the forecasts for its product and location. -/
noncomputable def calculateProjections (allSeries : List InventorySeries)
    (allInventoryData : List InventorySeriesData)
    (allForecasts : List ForecastData)
    (pProduct pLocation : Option String)
    (pProjectionDays : Option ℕ) (today : ℤ) : List ProjectionResult :=
  if (matchingSeries allSeries pProduct pLocation).isEmpty then []
  else
    (matchingSeries allSeries pProduct pLocation).map (fun series =>
      { product_id := series.product_id
        location_id := series.location_id
        warehouse_id := 1
        projections := calculateInventoryTimeline
          (allInventoryData.filter (fun inv => inv.series_id == series.id))
          ((matchingForecasts allForecasts pProduct pLocation today).filter
            (fun f => f.product_id == series.product_id &&
              f.location_id == series.location_id))
          (effectiveProjectionDays pProjectionDays) today })

/-- The summary record returned by `getProjectionSummary`. -/
structure ProjectionSummary where
  stockoutDays : ℕ
  criticalDays : ℕ
  warningDays : ℕ
  minInventory : ℚ
  totalDemand : ℚ
  riskLevel : String

/-- `Math.min(...)` over a spread array: the fold the source applies to the
mapped `projected_inventory` values (the list is non-empty on the only path
that reaches it). -/
def listMin : List ℚ → ℚ
  | [] => 0
  | x :: xs => xs.foldl min x

/-- `getProjectionSummary(projections)`: `null` on an empty input, else the
status counts, the minimum emitted projected inventory, the last day's
cumulative demand (`|| 0`), and the coarse risk level. -/
def getProjectionSummary (projections : List InventoryProjection) :
    Option ProjectionSummary :=
  if projections.isEmpty then none
  else
    let stockoutDays :=
      (projections.filter (fun p => p.status == .stockout)).length
    let criticalDays :=
      (projections.filter (fun p => p.status == .critical)).length
    let warningDays :=
      (projections.filter (fun p => p.status == .warning)).length
    let minInventory := listMin (projections.map (·.projected_inventory))
    let totalDemand :=
      match projections.getLast? with
      | some p => p.cumulative_demand
      | none => 0
    some
      { stockoutDays := stockoutDays
        criticalDays := criticalDays
        warningDays := warningDays
        minInventory := minInventory
        totalDemand := totalDemand
        riskLevel :=
          if 0 < stockoutDays then "high"
          else if 7 < criticalDays then "medium"
          else "low" }

/-- Population standard deviation as the spec words it: the square root of
the mean squared deviation of the values from their mean (stated directly
over `ℝ`, for comparison with the safety-stock computation). -/
noncomputable def populationStdDev (xs : List ℚ) : ℝ :=
  Real.sqrt
    ((xs.map (fun x : ℚ =>
        ((x : ℝ) - (xs.sum : ℝ) / (xs.length : ℝ)) ^ 2)).sum /
      (xs.length : ℝ))

/-! ### Helper lemmas about the embedded operations -/

lemma foldl_add_getD (l : List InventorySeriesData) :
    ∀ a : ℚ, l.foldl (fun sum item => sum + item.value.getD 0) a =
      a + (l.map (fun item => item.value.getD 0)).sum := by
  induction l with
  | nil => intro a; simp
  | cons x xs ih => intro a; simp [ih]; ring

lemma currentInventoryOf_eq_sum (inventoryData : List InventorySeriesData) :
    currentInventoryOf inventoryData =
      (inventoryData.map (fun item => item.value.getD 0)).sum := by
  simpa using foldl_add_getD inventoryData 0

lemma cumulativeDemand_eq_sum (forecasts : List ForecastData) (startDate : ℤ) :
    ∀ d : ℕ, cumulativeDemand forecasts startDate d =
      ∑ i ∈ Finset.range (d + 1), adjustedDemand forecasts startDate i := by
  intro d
  induction d with
  | zero => simp [cumulativeDemand]
  | succ d ih => simp [cumulativeDemand, ih, Finset.sum_range_succ]

lemma timeline_length (inventoryData : List InventorySeriesData)
    (forecasts : List ForecastData) (projectionDays : ℕ) (startDate : ℤ) :
    (calculateInventoryTimeline inventoryData forecasts projectionDays
      startDate).length = projectionDays + 1 := by
  simp [calculateInventoryTimeline]

lemma timeline_getElem? (inventoryData : List InventorySeriesData)
    (forecasts : List ForecastData) (projectionDays : ℕ) (startDate : ℤ)
    (d : ℕ) (hd : d ≤ projectionDays) :
    (calculateInventoryTimeline inventoryData forecasts projectionDays
        startDate)[d]? =
      some (projectionForDay (currentInventoryOf inventoryData)
        (calculateEnhancedSafetyStock forecasts) forecasts startDate d) := by
  unfold calculateInventoryTimeline
  rw [List.getElem?_map, List.getElem?_range (Nat.lt_succ_of_le hd)]
  rfl

lemma projectionForDay_forecast_demand (c : ℚ) (e : ℝ)
    (forecasts : List ForecastData) (t : ℤ) (d : ℕ) :
    (projectionForDay c e forecasts t d).forecast_demand =
      adjustedDemand forecasts t d := rfl

lemma projectionForDay_cumulative_demand (c : ℚ) (e : ℝ)
    (forecasts : List ForecastData) (t : ℤ) (d : ℕ) :
    (projectionForDay c e forecasts t d).cumulative_demand =
      cumulativeDemand forecasts t d := rfl

lemma projectionForDay_current_stock (c : ℚ) (e : ℝ)
    (forecasts : List ForecastData) (t : ℤ) (d : ℕ) :
    (projectionForDay c e forecasts t d).current_stock = c := rfl

lemma projectionForDay_safety_stock (c : ℚ) (e : ℝ)
    (forecasts : List ForecastData) (t : ℤ) (d : ℕ) :
    (projectionForDay c e forecasts t d).safety_stock = e := rfl

lemma projectionForDay_reorder_point (c : ℚ) (e : ℝ)
    (forecasts : List ForecastData) (t : ℤ) (d : ℕ) :
    (projectionForDay c e forecasts t d).reorder_point = e * 1.5 := rfl

open Classical in
lemma projectionForDay_projected_inventory (c : ℚ) (e : ℝ)
    (forecasts : List ForecastData) (t : ℤ) (d : ℕ) :
    (projectionForDay c e forecasts t d).projected_inventory =
      max 0 (if ((c - cumulativeDemand forecasts t d : ℚ) : ℝ) ≤ e * 1.5 ∧ 0 < d
        then
          (if 0 < c * 2 - (c - cumulativeDemand forecasts t d) then
            (c - cumulativeDemand forecasts t d) +
              (c * 2 - (c - cumulativeDemand forecasts t d))
          else c - cumulativeDemand forecasts t d)
        else c - cumulativeDemand forecasts t d) := rfl

open Classical in
lemma projectionForDay_status (c : ℚ) (e : ℝ)
    (forecasts : List ForecastData) (t : ℤ) (d : ℕ) :
    (projectionForDay c e forecasts t d).status =
      determineEnhancedInventoryStatus
        ((if ((c - cumulativeDemand forecasts t d : ℚ) : ℝ) ≤ e * 1.5 ∧ 0 < d
          then
            (if 0 < c * 2 - (c - cumulativeDemand forecasts t d) then
              (c - cumulativeDemand forecasts t d) +
                (c * 2 - (c - cumulativeDemand forecasts t d))
            else c - cumulativeDemand forecasts t d)
          else c - cumulativeDemand forecasts t d : ℚ) : ℝ)
        e (e * 1.5) := rfl

open Classical in
/-- The nested replenishment conditional of the loop body equals the
"add `max(0, maxCapacity − projectedInventory)` exactly when `day > 0` and at
or below the reorder point" form. -/
lemma replenish_ite_eq (c : ℚ) (e : ℝ) (d : ℕ) (cum : ℚ) :
    (if ((c - cum : ℚ) : ℝ) ≤ e * 1.5 ∧ 0 < d then
        (if 0 < c * 2 - (c - cum) then (c - cum) + (c * 2 - (c - cum))
          else c - cum)
      else c - cum) =
    (c - cum) + (if 0 < d ∧ ((c - cum : ℚ) : ℝ) ≤ e * 1.5 then
      max 0 (2 * c - (c - cum)) else 0) := by
  by_cases h1 : ((c - cum : ℚ) : ℝ) ≤ e * 1.5 ∧ 0 < d
  · rw [if_pos h1, if_pos (And.intro h1.2 h1.1)]
    by_cases h2 : 0 < c * 2 - (c - cum)
    · rw [if_pos h2, max_eq_right (by linarith)]
      ring
    · rw [if_neg h2, max_eq_left (by linarith)]
      ring
  · rw [if_neg h1, if_neg (fun h => h1 (And.intro h.2 h.1)), add_zero]

lemma foldl_min_le (l : List ℚ) :
    ∀ a : ℚ, l.foldl min a ≤ a ∧ ∀ x ∈ l, l.foldl min a ≤ x := by
  induction l with
  | nil => intro a; simp
  | cons y ys ih =>
    intro a
    rw [List.foldl_cons]
    obtain ⟨h1, h2⟩ := ih (min a y)
    refine ⟨le_trans h1 (min_le_left a y), ?_⟩
    intro x hx
    rcases List.mem_cons.mp hx with hx | hx
    · rw [hx]
      exact le_trans h1 (min_le_right a y)
    · exact h2 x hx

lemma foldl_min_mem (l : List ℚ) :
    ∀ a : ℚ, l.foldl min a = a ∨ l.foldl min a ∈ l := by
  induction l with
  | nil => intro a; simp
  | cons y ys ih =>
    intro a
    rw [List.foldl_cons]
    rcases ih (min a y) with h | h
    · rcases min_choice a y with hm | hm
      · exact Or.inl (by rw [h, hm])
      · refine Or.inr ?_
        rw [h, hm]
        exact List.mem_cons_self y ys
    · exact Or.inr (List.mem_cons_of_mem y h)

lemma listMin_mem (l : List ℚ) (h : l ≠ []) : listMin l ∈ l := by
  cases l with
  | nil => exact absurd rfl h
  | cons x xs =>
    show xs.foldl min x ∈ x :: xs
    rcases foldl_min_mem xs x with h' | h'
    · rw [h']
      exact List.mem_cons_self x xs
    · exact List.mem_cons_of_mem x h'

lemma listMin_le (l : List ℚ) : ∀ x ∈ l, listMin l ≤ x := by
  cases l with
  | nil => intro x hx; cases hx
  | cons y ys =>
    intro x hx
    show ys.foldl min y ≤ x
    rcases List.mem_cons.mp hx with hx | hx
    · rw [hx]
      exact (foldl_min_le ys y).1
    · exact (foldl_min_le ys y).2 x hx

lemma getProjectionSummary_of_ne (ps : List InventoryProjection)
    (h : ps ≠ []) :
    getProjectionSummary ps = some
      { stockoutDays := (ps.filter (fun p => p.status == .stockout)).length
        criticalDays := (ps.filter (fun p => p.status == .critical)).length
        warningDays := (ps.filter (fun p => p.status == .warning)).length
        minInventory := listMin (ps.map (fun p => p.projected_inventory))
        totalDemand :=
          match ps.getLast? with
          | some p => p.cumulative_demand
          | none => 0
        riskLevel :=
          if 0 < (ps.filter (fun p => p.status == .stockout)).length then "high"
          else if 7 < (ps.filter (fun p => p.status == .critical)).length then
            "medium"
          else "low" } := by
  unfold getProjectionSummary
  rw [if_neg (by simpa [List.isEmpty_iff] using h)]

lemma ratCast_list_sum (l : List ℚ) :
    ((l.sum : ℚ) : ℝ) = (l.map (fun x : ℚ => (x : ℝ))).sum := by
  induction l with
  | nil => simp
  | cons x xs ih => rw [List.map_cons, List.sum_cons, List.sum_cons, Rat.cast_add, ih]

lemma variance_cast (l : List ℚ) :
    (((l.map (fun d => (d - l.sum / l.length) ^ 2)).sum / l.length : ℚ) : ℝ) =
      (l.map (fun x : ℚ => ((x : ℝ) - (l.sum : ℝ) / (l.length : ℝ)) ^ 2)).sum /
        (l.length : ℝ) := by
  rw [Rat.cast_div]
  congr 1
  · rw [ratCast_list_sum, List.map_map]
    refine congrArg List.sum (List.map_congr_left fun d _ => ?_)
    simp only [Function.comp_apply]
    push_cast
    ring

/-- The safety stock computed by the source equals the spec's
`max(10, Z · stdDev · sqrt(leadTime/7))` formula with the population
standard deviation taken over the forecast values (nulls as 0). -/
lemma calculateEnhancedSafetyStock_eq (fs : List ForecastData) :
    calculateEnhancedSafetyStock fs =
      max 10 (1.65 * populationStdDev (fs.map (fun f => f.forecast.getD 0)) *
        Real.sqrt ((14 : ℝ) / 7)) := by
  by_cases h : fs.isEmpty
  · rw [List.isEmpty_iff] at h
    subst h
    simp [calculateEnhancedSafetyStock, populationStdDev]
  · simp only [calculateEnhancedSafetyStock, populationStdDev, if_neg h]
    rw [max_comm, variance_cast (fs.map (fun f => f.forecast.getD 0))]

/-- Specification of the closest-entry reduce: the fold result occurs in
`acc :: l` at an index all of whose predecessors are strictly farther from
`date`, and it is at least as close as every entry of `acc :: l` — so the
first-encountered closest entry wins. -/
lemma foldl_pickCloser_spec (date : ℤ) (l : List ForecastData) :
    ∀ acc : ForecastData,
      ∃ i : ℕ,
        (acc :: l)[i]? = some (l.foldl (pickCloser date) acc) ∧
        (∀ j x, j < i → (acc :: l)[j]? = some x →
          |(l.foldl (pickCloser date) acc).postdate - date| <
            |x.postdate - date|) ∧
        ∀ x ∈ acc :: l,
          |(l.foldl (pickCloser date) acc).postdate - date| ≤
            |x.postdate - date| := by
  induction l with
  | nil =>
    intro acc
    refine ⟨0, rfl, fun j x hj _ => absurd hj (Nat.not_lt_zero j), ?_⟩
    intro x hx
    rw [List.mem_singleton.mp hx, List.foldl_nil]
  | cons a l ih =>
    intro acc
    rw [List.foldl_cons]
    by_cases hc : |a.postdate - date| < |acc.postdate - date|
    · rw [show pickCloser date acc a = a from if_pos hc]
      obtain ⟨i, hi, hstrict, hmin⟩ := ih a
      have hra : |(l.foldl (pickCloser date) a).postdate - date| ≤
          |a.postdate - date| := hmin a (List.mem_cons_self a l)
      refine ⟨i + 1, by rw [List.getElem?_cons_succ]; exact hi, ?_, ?_⟩
      · intro j x hj hx
        cases j with
        | zero =>
          rw [List.getElem?_cons_zero] at hx
          cases hx
          exact lt_of_le_of_lt hra hc
        | succ j =>
          rw [List.getElem?_cons_succ] at hx
          exact hstrict j x (Nat.lt_of_succ_lt_succ hj) hx
      · intro x hx
        rcases List.mem_cons.mp hx with hx | hx
        · rw [hx]
          exact le_of_lt (lt_of_le_of_lt hra hc)
        · exact hmin x hx
    · rw [show pickCloser date acc a = acc from if_neg hc]
      obtain ⟨i, hi, hstrict, hmin⟩ := ih acc
      have hacc_a : |acc.postdate - date| ≤ |a.postdate - date| := not_lt.mp hc
      cases i with
      | zero =>
        rw [List.getElem?_cons_zero] at hi
        refine ⟨0, by rw [List.getElem?_cons_zero]; exact hi, ?_, ?_⟩
        · exact fun j x hj _ => absurd hj (Nat.not_lt_zero j)
        · intro x hx
          have hr : l.foldl (pickCloser date) acc = acc := by
            injection hi with hi'
            exact hi'.symm
          rcases List.mem_cons.mp hx with hx | hx
          · rw [hx, hr]
          · rcases List.mem_cons.mp hx with hx | hx
            · rw [hx, hr]
              exact hacc_a
            · exact hmin x (List.mem_cons_of_mem acc hx)
      | succ i =>
        rw [List.getElem?_cons_succ] at hi
        have hrlt : |(l.foldl (pickCloser date) acc).postdate - date| <
            |acc.postdate - date| :=
          hstrict 0 acc (Nat.succ_pos i) (List.getElem?_cons_zero)
        refine ⟨i + 2,
          by rw [List.getElem?_cons_succ, List.getElem?_cons_succ]; exact hi,
          ?_, ?_⟩
        · intro j x hj hx
          match j with
          | 0 =>
            rw [List.getElem?_cons_zero] at hx
            cases hx
            exact hrlt
          | 1 =>
            rw [List.getElem?_cons_succ, List.getElem?_cons_zero] at hx
            cases hx
            exact lt_of_lt_of_le hrlt hacc_a
          | (j + 2) =>
            rw [List.getElem?_cons_succ, List.getElem?_cons_succ] at hx
            refine hstrict (j + 1) x (by omega) ?_
            rw [List.getElem?_cons_succ]
            exact hx
        · intro x hx
          rcases List.mem_cons.mp hx with hx | hx
          · rw [hx]
            exact le_of_lt hrlt
          · rcases List.mem_cons.mp hx with hx | hx
            · rw [hx]
              exact le_of_lt (lt_of_lt_of_le hrlt hacc_a)
            · exact hmin x (List.mem_cons_of_mem acc hx)

lemma mem_sortedForecastsOf {x : ForecastData} {fs : List ForecastData} :
    x ∈ sortedForecastsOf fs ↔ x ∈ fs ∧ x.forecast.isSome = true := by
  unfold sortedForecastsOf
  rw [List.mem_mergeSort, List.mem_filter]

lemma closestDemand_of_sorted_nil (fs : List ForecastData) (date : ℤ)
    (h : sortedForecastsOf fs = []) : closestDemand fs date = 0 := by
  unfold closestDemand
  rw [h]

/-- The closest-forecast fallback returns the value of a non-null entry of
the input that minimises the absolute date distance, every entry placed
earlier in the sorted candidate list being strictly farther. -/
lemma closestDemand_spec (fs : List ForecastData) (date : ℤ)
    (h : sortedForecastsOf fs ≠ []) :
    ∃ (i : ℕ) (g : ForecastData),
      (sortedForecastsOf fs)[i]? = some g ∧ g ∈ fs ∧
      g.forecast.isSome = true ∧
      closestDemand fs date = g.forecast.getD 0 ∧
      (∀ (j : ℕ) (x : ForecastData), j < i →
        (sortedForecastsOf fs)[j]? = some x →
        |g.postdate - date| < |x.postdate - date|) ∧
      ∀ x ∈ fs, x.forecast.isSome = true →
        |g.postdate - date| ≤ |x.postdate - date| := by
  cases hs : sortedForecastsOf fs with
  | nil => exact absurd hs h
  | cons first rest =>
    obtain ⟨i, hi, hstrict, hmin⟩ := foldl_pickCloser_spec date rest first
    have hmem : rest.foldl (pickCloser date) first ∈ sortedForecastsOf fs := by
      rw [hs]
      exact List.getElem?_mem hi
    refine ⟨i, rest.foldl (pickCloser date) first, ?_,
      (mem_sortedForecastsOf.mp hmem).1, (mem_sortedForecastsOf.mp hmem).2,
      ?_, ?_, ?_⟩
    · exact hi
    · unfold closestDemand
      rw [hs]
    · intro j x hj hx
      exact hstrict j x hj hx
    · intro x hx hsome
      refine hmin x ?_
      have hx' : x ∈ sortedForecastsOf fs :=
        mem_sortedForecastsOf.mpr ⟨hx, hsome⟩
      rw [hs] at hx'
      exact hx'

lemma getDailyDemand_nil (date : ℤ) : getDailyDemand [] date = 0 := rfl

lemma getDailyDemand_exact (fs : List ForecastData) (date : ℤ)
    (f : ForecastData)
    (hf : fs.find? (fun g => g.postdate == date) = some f)
    (v : ℚ) (hv : f.forecast = some v) (hv0 : v ≠ 0) :
    getDailyDemand fs date = v := by
  cases fs with
  | nil => cases hf
  | cons a l =>
    unfold getDailyDemand
    rw [if_neg (by simp)]
    simp only [hf, hv]
    rw [if_pos hv0]

lemma getDailyDemand_no_exact (fs : List ForecastData) (date : ℤ)
    (hf : fs.find? (fun g => g.postdate == date) = none) :
    getDailyDemand fs date = closestDemand fs date := by
  cases fs with
  | nil =>
    rw [getDailyDemand_nil, closestDemand_of_sorted_nil [] date
      (by simp [sortedForecastsOf])]
  | cons a l =>
    unfold getDailyDemand
    rw [if_neg (by simp)]
    simp only [hf]

lemma getDailyDemand_exact_untruthy (fs : List ForecastData) (date : ℤ)
    (f : ForecastData)
    (hf : fs.find? (fun g => g.postdate == date) = some f)
    (h0 : f.forecast.getD 0 = 0) :
    getDailyDemand fs date = closestDemand fs date := by
  cases fs with
  | nil => cases hf
  | cons a l =>
    unfold getDailyDemand
    rw [if_neg (by simp)]
    cases hv : f.forecast with
    | none => simp only [hf, hv]
    | some v =>
      rw [hv] at h0
      simp only [Option.getD_some] at h0
      simp only [hf, hv]
      rw [if_neg (by simp [h0])]

lemma seasonalFactors_pos (m : ℕ) : 0 < seasonalFactors m := by
  unfold seasonalFactors
  split <;> norm_num

lemma closestDemand_nonneg (fs : List ForecastData) (date : ℤ)
    (hfs : ∀ f ∈ fs, 0 ≤ f.forecast.getD 0) :
    0 ≤ closestDemand fs date := by
  by_cases h : sortedForecastsOf fs = []
  · rw [closestDemand_of_sorted_nil fs date h]
  · obtain ⟨i, g, -, hg, -, heq, -, -⟩ := closestDemand_spec fs date h
    rw [heq]
    exact hfs g hg

lemma getDailyDemand_nonneg (fs : List ForecastData) (date : ℤ)
    (hfs : ∀ f ∈ fs, 0 ≤ f.forecast.getD 0) :
    0 ≤ getDailyDemand fs date := by
  cases hfind : fs.find? (fun g => g.postdate == date) with
  | none =>
    rw [getDailyDemand_no_exact fs date hfind]
    exact closestDemand_nonneg fs date hfs
  | some f =>
    cases hv : f.forecast with
    | none =>
      rw [getDailyDemand_exact_untruthy fs date f hfind (by rw [hv]; rfl)]
      exact closestDemand_nonneg fs date hfs
    | some v =>
      by_cases hv0 : v = 0
      · rw [getDailyDemand_exact_untruthy fs date f hfind
          (by rw [hv, hv0]; rfl)]
        exact closestDemand_nonneg fs date hfs
      · rw [getDailyDemand_exact fs date f hfind v hv hv0]
        have := hfs f (List.mem_of_find?_eq_some hfind)
        rw [hv] at this
        exact this

lemma adjustedDemand_nonneg (fs : List ForecastData) (t : ℤ) (d : ℕ)
    (hfs : ∀ f ∈ fs, 0 ≤ f.forecast.getD 0) :
    0 ≤ adjustedDemand fs t d :=
  mul_nonneg (getDailyDemand_nonneg fs _ hfs)
    (le_of_lt (seasonalFactors_pos _))

lemma cumulativeDemand_mono (fs : List ForecastData) (t : ℤ)
    (hfs : ∀ f ∈ fs, 0 ≤ f.forecast.getD 0) :
    ∀ d e : ℕ, d ≤ e →
      cumulativeDemand fs t d ≤ cumulativeDemand fs t e := by
  intro d e
  induction e with
  | zero =>
    intro hde
    rw [Nat.le_zero.mp hde]
  | succ e ih =>
    intro hde
    rcases Nat.eq_or_lt_of_le hde with hd | hd
    · rw [hd]
    · refine le_trans (ih (Nat.lt_succ_iff.mp hd)) ?_
      have h1 : cumulativeDemand fs t (e + 1) =
          cumulativeDemand fs t e + adjustedDemand fs t (e + 1) := rfl
      rw [h1]
      have h2 := adjustedDemand_nonneg fs t (e + 1) hfs
      linarith

/-! ### Claim theorems -/

open Classical in
/-- Claim C1: for every day `d ≤ horizon`, the pre-replenishment projected
inventory is the baseline (sum of all observation values, nulls as 0) minus
the cumulative adjusted demand through day `d` — a running total against the
original baseline — and exactly when `d > 0` and that value is at most the
reorder point, `max(0, 2·baseline − value)` is added; day 0 never
replenishes.  The emitted value is floored at 0. -/
theorem claim_C1_running_total_and_replenishment
    (inv : List InventorySeriesData) (fs : List ForecastData)
    (n : ℕ) (t : ℤ) (d : ℕ) (h : d ≤ n) :
    ((calculateInventoryTimeline inv fs n t)[d]?).map
        (fun p => p.projected_inventory) =
      some (max 0 ((currentInventoryOf inv - cumulativeDemand fs t d) +
        (if 0 < d ∧ ((currentInventoryOf inv - cumulativeDemand fs t d : ℚ) : ℝ) ≤
            calculateEnhancedSafetyStock fs * 1.5 then
          max 0 (2 * currentInventoryOf inv -
            (currentInventoryOf inv - cumulativeDemand fs t d))
        else 0))) ∧
    cumulativeDemand fs t d =
      ∑ i ∈ Finset.range (d + 1), adjustedDemand fs t i ∧
    currentInventoryOf inv =
      (inv.map (fun item => item.value.getD 0)).sum ∧
    ((calculateInventoryTimeline inv fs n t)[0]?).map
        (fun p => p.projected_inventory) =
      some (max 0 (currentInventoryOf inv - cumulativeDemand fs t 0)) := by
  refine ⟨?_, cumulativeDemand_eq_sum fs t d, currentInventoryOf_eq_sum inv, ?_⟩
  · rw [timeline_getElem? inv fs n t d h, Option.map_some',
      projectionForDay_projected_inventory, replenish_ite_eq]
  · rw [timeline_getElem? inv fs n t 0 (Nat.zero_le n), Option.map_some',
      projectionForDay_projected_inventory, replenish_ite_eq]
    simp

/-- Claim C1 witness: instantiation at a concrete input. -/
theorem claim_C1_witness :
    ∃ q : ℚ, ((calculateInventoryTimeline [] [] 0 0)[0]?).map
      (fun p => p.projected_inventory) = some q :=
  ⟨_, (claim_C1_running_total_and_replenishment [] [] 0 0 0 (le_refl 0)).1⟩

/-- Claim C3: the safety stock equals
`max(10, 1.65 · stdDev · sqrt(14/7))` with `stdDev` the population standard
deviation of the forecast values (nulls as 0); it is exactly 10 on an empty
forecast list, in which case every day's `forecast_demand` is 0; every
emitted day carries this safety stock. -/
theorem claim_C3_safety_stock_formula
    (inv : List InventorySeriesData) (fs : List ForecastData)
    (n : ℕ) (t : ℤ) :
    calculateEnhancedSafetyStock fs =
      max 10 (1.65 * populationStdDev (fs.map (fun f => f.forecast.getD 0)) *
        Real.sqrt ((14 : ℝ) / 7)) ∧
    (fs = [] → calculateEnhancedSafetyStock fs = 10 ∧
      ∀ d : ℕ, d ≤ n →
        ((calculateInventoryTimeline inv fs n t)[d]?).map
          (fun p => p.forecast_demand) = some 0) ∧
    (∀ d : ℕ, d ≤ n →
      ((calculateInventoryTimeline inv fs n t)[d]?).map
        (fun p => p.safety_stock) = some (calculateEnhancedSafetyStock fs)) := by
  refine ⟨calculateEnhancedSafetyStock_eq fs, ?_, ?_⟩
  · intro hfs
    subst hfs
    refine ⟨by simp [calculateEnhancedSafetyStock], ?_⟩
    intro d hd
    rw [timeline_getElem? inv [] n t d hd, Option.map_some',
      projectionForDay_forecast_demand]
    simp [adjustedDemand, getDailyDemand]
  · intro d hd
    rw [timeline_getElem? inv fs n t d hd, Option.map_some',
      projectionForDay_safety_stock]

/-- Claim C3 witness: the empty-forecast case at a concrete input. -/
theorem claim_C3_witness :
    calculateEnhancedSafetyStock [] = 10 ∧
    ((calculateInventoryTimeline [] [] 0 0)[0]?).map
      (fun p => p.forecast_demand) = some 0 := by
  have h := claim_C3_safety_stock_formula [] [] 0 0
  exact ⟨(h.2.1 rfl).1, (h.2.1 rfl).2 0 (le_refl 0)⟩

open Classical in
/-- Claim C4: every emitted day's status is classified from the
post-replenishment, unclamped projected inventory: `stockout` when ≤ 0,
else `critical` when ≤ safetyStock·0.5, else `warning` when ≤ safetyStock,
else `optimal`; with safety stock 100 the inventories 0, 50, 100, 101 yield
`stockout`, `critical`, `warning`, `optimal` respectively. -/
theorem claim_C4_status_classification
    (inv : List InventorySeriesData) (fs : List ForecastData)
    (n : ℕ) (t : ℤ) (d : ℕ) (h : d ≤ n) :
    ((calculateInventoryTimeline inv fs n t)[d]?).map (fun p => p.status) =
      some (determineEnhancedInventoryStatus
        (((currentInventoryOf inv - cumulativeDemand fs t d) +
          (if 0 < d ∧
              ((currentInventoryOf inv - cumulativeDemand fs t d : ℚ) : ℝ) ≤
                calculateEnhancedSafetyStock fs * 1.5 then
            max 0 (2 * currentInventoryOf inv -
              (currentInventoryOf inv - cumulativeDemand fs t d))
          else 0) : ℚ) : ℝ)
        (calculateEnhancedSafetyStock fs)
        (calculateEnhancedSafetyStock fs * 1.5)) ∧
    determineEnhancedInventoryStatus 0 100 150 = .stockout ∧
    determineEnhancedInventoryStatus 50 100 150 = .critical ∧
    determineEnhancedInventoryStatus 100 100 150 = .warning ∧
    determineEnhancedInventoryStatus 101 100 150 = .optimal ∧
    (∀ p s r : ℝ,
      (p ≤ 0 → determineEnhancedInventoryStatus p s r = .stockout) ∧
      (¬p ≤ 0 → p ≤ s * 0.5 →
        determineEnhancedInventoryStatus p s r = .critical) ∧
      (¬p ≤ 0 → ¬p ≤ s * 0.5 → p ≤ s →
        determineEnhancedInventoryStatus p s r = .warning) ∧
      (¬p ≤ 0 → ¬p ≤ s * 0.5 → ¬p ≤ s →
        determineEnhancedInventoryStatus p s r = .optimal)) := by
  refine ⟨?_, by norm_num [determineEnhancedInventoryStatus],
    by norm_num [determineEnhancedInventoryStatus],
    by norm_num [determineEnhancedInventoryStatus],
    by norm_num [determineEnhancedInventoryStatus], ?_⟩
  · rw [timeline_getElem? inv fs n t d h, Option.map_some',
      projectionForDay_status, replenish_ite_eq]
  · intro p s r
    refine ⟨fun hp => ?_, fun h1 h2 => ?_, fun h1 h2 h3 => ?_,
      fun h1 h2 h3 => ?_⟩ <;>
      simp [determineEnhancedInventoryStatus, *]

/-- Claim C4 witness: the boundary classifications at a concrete input. -/
theorem claim_C4_witness :
    determineEnhancedInventoryStatus 0 100 150 = .stockout ∧
    determineEnhancedInventoryStatus 101 100 150 = .optimal := by
  have h := claim_C4_status_classification [] [] 0 0 0 (le_refl 0)
  exact ⟨h.2.1, h.2.2.2.2.1⟩

/-- Claim C6: on a non-empty projection sequence, `getProjectionSummary`
returns the stockout/critical/warning day counts, the minimum emitted
projected inventory, the last day's cumulative demand as total demand, and
risk `high` when any stockout day exists, else `medium` when the critical
count exceeds 7, else `low`; an all-`optimal` sequence yields zero counts
and `low`. -/
theorem claim_C6_summary_contents (ps : List InventoryProjection)
    (h : ps ≠ []) :
    ∃ s, getProjectionSummary ps = some s ∧
      s.stockoutDays = (ps.filter (fun p => p.status == .stockout)).length ∧
      s.criticalDays = (ps.filter (fun p => p.status == .critical)).length ∧
      s.warningDays = (ps.filter (fun p => p.status == .warning)).length ∧
      s.minInventory ∈ ps.map (fun p => p.projected_inventory) ∧
      (∀ x ∈ ps.map (fun p => p.projected_inventory), s.minInventory ≤ x) ∧
      s.totalDemand = (ps.getLast h).cumulative_demand ∧
      s.riskLevel = (if 0 < s.stockoutDays then "high"
        else if 7 < s.criticalDays then "medium" else "low") ∧
      ((∀ p ∈ ps, p.status = .optimal) →
        s.stockoutDays = 0 ∧ s.criticalDays = 0 ∧ s.warningDays = 0 ∧
          s.riskLevel = "low") := by
  refine ⟨_, getProjectionSummary_of_ne ps h, rfl, rfl, rfl, ?_, ?_, ?_, rfl,
    ?_⟩
  · exact listMin_mem _ (by simpa using h)
  · exact fun x hx => listMin_le _ x hx
  · show (match ps.getLast? with
      | some p => p.cumulative_demand
      | none => 0) = (ps.getLast h).cumulative_demand
    rw [List.getLast?_eq_getLast ps h]
  · intro hopt
    have hs : ps.filter (fun p => p.status == .stockout) = [] :=
      List.filter_eq_nil_iff.mpr (fun p hp => by simp [hopt p hp])
    have hc : ps.filter (fun p => p.status == .critical) = [] :=
      List.filter_eq_nil_iff.mpr (fun p hp => by simp [hopt p hp])
    have hw : ps.filter (fun p => p.status == .warning) = [] :=
      List.filter_eq_nil_iff.mpr (fun p hp => by simp [hopt p hp])
    refine ⟨by simp [hs], by simp [hc], by simp [hw], ?_⟩
    show (if 0 < (ps.filter (fun p => p.status == .stockout)).length then
        "high"
      else if 7 < (ps.filter (fun p => p.status == .critical)).length then
        "medium"
      else "low") = "low"
    simp [hs, hc]

/-- Claim C6 witness: a concrete single-day all-optimal sequence. -/
theorem claim_C6_witness :
    ∃ s, getProjectionSummary [⟨0, 5, 0, 5, 0, 15, 10, .optimal⟩] = some s := by
  obtain ⟨s, hs, -⟩ :=
    claim_C6_summary_contents [⟨0, 5, 0, 5, 0, 15, 10, .optimal⟩] (by simp)
  exact ⟨s, hs⟩

/-- Claim C7: the timeline has exactly `horizon + 1` days (day 0 through day
`horizon`), a horizon of 0 yielding a single day-0 entry. -/
theorem claim_C7_output_length (inv : List InventorySeriesData)
    (fs : List ForecastData) (n : ℕ) (t : ℤ) :
    (calculateInventoryTimeline inv fs n t).length = n + 1 ∧
    (calculateInventoryTimeline inv fs 0 t).length = 1 :=
  ⟨timeline_length inv fs n t, timeline_length inv fs 0 t⟩

/-- Claim C9: every day of one projection carries the same safety stock,
the same reorder point (`safetyStock · 1.5`) and the same current stock
(the baseline sum of observation values), all computed once. -/
theorem claim_C9_constant_fields (inv : List InventorySeriesData)
    (fs : List ForecastData) (n : ℕ) (t : ℤ) (d : ℕ) (h : d ≤ n) :
    ∃ p, (calculateInventoryTimeline inv fs n t)[d]? = some p ∧
      p.safety_stock = calculateEnhancedSafetyStock fs ∧
      p.reorder_point = calculateEnhancedSafetyStock fs * 1.5 ∧
      p.current_stock = currentInventoryOf inv ∧
      currentInventoryOf inv = (inv.map (fun item => item.value.getD 0)).sum :=
  ⟨_, timeline_getElem? inv fs n t d h, rfl, rfl, rfl,
    currentInventoryOf_eq_sum inv⟩

/-- Claim C9 witness: instantiation at a concrete input. -/
theorem claim_C9_witness :
    ∃ p, (calculateInventoryTimeline [] [] 0 0)[0]? = some p ∧
      p.current_stock = currentInventoryOf [] := by
  obtain ⟨p, hp, -, -, hc, -⟩ :=
    claim_C9_constant_fields [] [] 0 0 0 (le_refl 0)
  exact ⟨p, hp, hc⟩

/-- Claim C10: `getProjectionSummary` yields no summary exactly on the empty
sequence. -/
theorem claim_C10_empty_summary :
    ∀ ps : List InventoryProjection,
      getProjectionSummary ps = none ↔ ps = [] := by
  intro ps
  constructor
  · intro hnone
    by_contra hne
    rw [getProjectionSummary_of_ne ps hne] at hnone
    exact Option.noConfusion hnone
  · intro h
    subst h
    rfl

/-- Claim C2 counterexample: with forecasts `[(date 0, null), (date 5, 50)]`
and projection day 0 (date 0), a forecast point exactly matching the day's
date exists, so under the claim (nulls read as 0) the base demand would be
0 and the emitted demand 0; the code instead skips the null exact match and
uses the closest non-null point, emitting `50 · 0.9 = 45 ≠ 0`
(day 0 of the epoch is in January, seasonal factor 0.9). -/
theorem claim_C2_counterexample :
    ((calculateInventoryTimeline []
        [⟨"p", "l", 0, none, none⟩, ⟨"p", "l", 5, some 50, none⟩]
        0 0)[0]?).map (fun p => p.forecast_demand) = some 45 ∧
    ([⟨"p", "l", 0, none, none⟩, ⟨"p", "l", 5, some 50, none⟩] :
        List ForecastData).find? (fun g => g.postdate == (0 : ℤ)) =
      some ⟨"p", "l", 0, none, none⟩ ∧
    (⟨"p", "l", 0, none, none⟩ : ForecastData).forecast.getD 0 *
        getSeasonalAdjustment 0 = 0 ∧
    (45 : ℚ) ≠ 0 := by
  have hcm : civilMonth 0 = 1 := by decide
  refine ⟨?_, rfl, by simp, by norm_num⟩
  rw [timeline_getElem? _ _ 0 0 0 (le_refl 0), Option.map_some',
    projectionForDay_forecast_demand]
  norm_num [adjustedDemand, getDailyDemand, closestDemand, sortedForecastsOf,
    pickCloser, List.mergeSort, List.find?, getSeasonalAdjustment, hcm,
    seasonalFactors]

/-- Claim C2 (amended): every day's emitted demand is the base daily demand
at the day's date times the seasonal factor of its calendar month (table
0.9–1.3, 1.0 in March, 1.2 in July, peaking at 1.3 in December); the base
demand is the value of the first exactly-matching forecast provided that
value is non-null and non-zero; otherwise it falls back to the non-null
point closest in absolute time distance, earlier (date-sorted) points
winning ties; it is 0 when no forecast, or no non-null forecast, exists. -/
theorem claim_C2_seasonal_demand (inv : List InventorySeriesData)
    (fs : List ForecastData) (n : ℕ) (t : ℤ) (d : ℕ) (h : d ≤ n) :
    ((calculateInventoryTimeline inv fs n t)[d]?).map
        (fun p => p.forecast_demand) =
      some (getDailyDemand fs (t + d) * getSeasonalAdjustment (t + d)) ∧
    getSeasonalAdjustment (t + d) = seasonalFactors (civilMonth (t + d)) ∧
    seasonalFactors 3 = 1 ∧ seasonalFactors 7 = 1.2 ∧
    seasonalFactors 12 = 1.3 ∧
    (∀ m : ℕ, seasonalFactors m ≤ 1.3) ∧
    (∀ m : ℕ, 1 ≤ m → m ≤ 12 → 0.9 ≤ seasonalFactors m) ∧
    (∀ (date : ℤ) (f : ForecastData),
      fs.find? (fun g => g.postdate == date) = some f →
      ∀ v : ℚ, f.forecast = some v → v ≠ 0 → getDailyDemand fs date = v) ∧
    (∀ date : ℤ, fs.find? (fun g => g.postdate == date) = none →
      getDailyDemand fs date = closestDemand fs date) ∧
    (∀ (date : ℤ) (f : ForecastData),
      fs.find? (fun g => g.postdate == date) = some f →
      f.forecast.getD 0 = 0 →
      getDailyDemand fs date = closestDemand fs date) ∧
    (fs = [] → ∀ date : ℤ, getDailyDemand fs date = 0) ∧
    (∀ date : ℤ, sortedForecastsOf fs = [] → closestDemand fs date = 0) ∧
    (∀ date : ℤ, sortedForecastsOf fs ≠ [] →
      ∃ (i : ℕ) (g : ForecastData),
        (sortedForecastsOf fs)[i]? = some g ∧ g ∈ fs ∧
        g.forecast.isSome = true ∧
        closestDemand fs date = g.forecast.getD 0 ∧
        (∀ (j : ℕ) (x : ForecastData), j < i →
          (sortedForecastsOf fs)[j]? = some x →
          |g.postdate - date| < |x.postdate - date|) ∧
        ∀ x ∈ fs, x.forecast.isSome = true →
          |g.postdate - date| ≤ |x.postdate - date|) := by
  refine ⟨?_, rfl, by norm_num [seasonalFactors], rfl, rfl, ?_, ?_,
    fun date f hf v hv hv0 => getDailyDemand_exact fs date f hf v hv hv0,
    fun date hf => getDailyDemand_no_exact fs date hf,
    fun date f hf h0 => getDailyDemand_exact_untruthy fs date f hf h0,
    fun hfs date => by rw [hfs]; exact getDailyDemand_nil date,
    fun date hs => closestDemand_of_sorted_nil fs date hs,
    fun date hs => closestDemand_spec fs date hs⟩
  · rw [timeline_getElem? inv fs n t d h, Option.map_some',
      projectionForDay_forecast_demand]
    rfl
  · intro m
    unfold seasonalFactors
    split <;> norm_num
  · intro m h1 h12
    interval_cases m <;> norm_num [seasonalFactors]

/-- Claim C2 witness: instantiation of the amended claim at a concrete
input. -/
theorem claim_C2_witness :
    ∃ q : ℚ, ((calculateInventoryTimeline [] [] 0 0)[0]?).map
      (fun p => p.forecast_demand) = some q :=
  ⟨_, (claim_C2_seasonal_demand [] [] 0 0 0 (le_refl 0)).1⟩

/-- Claim C8 counterexample: a single negative forecast value (−5) makes
every day's adjusted demand negative, so the cumulative demand strictly
decreases: day 0 emits −9/2 and day 1 emits −9, and −9/2 ≤ −9 fails. -/
theorem claim_C8_counterexample :
    ((calculateInventoryTimeline [] [⟨"p", "l", 0, some (-5), none⟩]
        1 0)[0]?).map (fun p => p.cumulative_demand) =
      some ((-9 : ℚ) / 2) ∧
    ((calculateInventoryTimeline [] [⟨"p", "l", 0, some (-5), none⟩]
        1 0)[1]?).map (fun p => p.cumulative_demand) = some (-9 : ℚ) ∧
    ¬((-9 / 2 : ℚ) ≤ -9) := by
  have hcm0 : civilMonth 0 = 1 := by decide
  have hcm1 : civilMonth 1 = 1 := by decide
  refine ⟨?_, ?_, by norm_num⟩
  · rw [timeline_getElem? _ _ 1 0 0 (by norm_num), Option.map_some',
      projectionForDay_cumulative_demand]
    norm_num [cumulativeDemand, adjustedDemand, getDailyDemand,
      closestDemand, sortedForecastsOf, pickCloser, List.mergeSort,
      List.find?, getSeasonalAdjustment, hcm0, hcm1, seasonalFactors]
  · rw [timeline_getElem? _ _ 1 0 1 (le_refl 1), Option.map_some',
      projectionForDay_cumulative_demand]
    have hb : ((0 : ℤ) == (1 : ℤ)) = false := rfl
    norm_num [cumulativeDemand, adjustedDemand, getDailyDemand,
      closestDemand, sortedForecastsOf, pickCloser, List.mergeSort,
      List.find?, getSeasonalAdjustment, hcm0, hcm1, seasonalFactors, hb]

/-- Claim C8 (amended): when every forecast value (nulls as 0) is
non-negative, the emitted cumulative demand is monotonically non-decreasing
across the projection. -/
theorem claim_C8_cumulative_monotone (inv : List InventorySeriesData)
    (fs : List ForecastData) (n : ℕ) (t : ℤ)
    (hfs : ∀ f ∈ fs, 0 ≤ f.forecast.getD 0)
    (d e : ℕ) (hde : d ≤ e) (he : e ≤ n) :
    ∃ x y : ℚ,
      ((calculateInventoryTimeline inv fs n t)[d]?).map
        (fun p => p.cumulative_demand) = some x ∧
      ((calculateInventoryTimeline inv fs n t)[e]?).map
        (fun p => p.cumulative_demand) = some y ∧ x ≤ y := by
  refine ⟨cumulativeDemand fs t d, cumulativeDemand fs t e, ?_, ?_,
    cumulativeDemand_mono fs t hfs d e hde⟩
  · rw [timeline_getElem? inv fs n t d (le_trans hde he), Option.map_some',
      projectionForDay_cumulative_demand]
  · rw [timeline_getElem? inv fs n t e he, Option.map_some',
      projectionForDay_cumulative_demand]

/-- Claim C8 witness: instantiation of the amended claim at a concrete
input with a non-negative forecast. -/
theorem claim_C8_witness :
    ∃ x y : ℚ,
      ((calculateInventoryTimeline [] [⟨"p", "l", 0, some 5, none⟩]
          1 0)[0]?).map (fun p => p.cumulative_demand) = some x ∧
      ((calculateInventoryTimeline [] [⟨"p", "l", 0, some 5, none⟩]
          1 0)[1]?).map (fun p => p.cumulative_demand) = some y ∧ x ≤ y :=
  claim_C8_cumulative_monotone [] [⟨"p", "l", 0, some 5, none⟩] 1 0
    (by
      intro f hf
      rw [List.mem_singleton.mp hf]
      norm_num)
    0 1 (by norm_num) (le_refl 1)

/-- Claim C5 counterexample: a series with no inventory observations (and
no forecasts) still yields a full 91-day projection built on a fabricated
baseline of 0, not an empty output. -/
theorem claim_C5_counterexample :
    (calculateProjections [⟨1, "p", "l"⟩] [] [] none none none 0).map
      (fun r => r.projections.length) = [91] ∧
    calculateProjections [⟨1, "p", "l"⟩] [] [] none none none 0 ≠ [] := by
  have h1 : calculateProjections [⟨1, "p", "l"⟩] [] [] none none none 0 =
      [⟨"p", "l", 1, calculateInventoryTimeline [] [] 90 0⟩] := by
    simp [calculateProjections, matchingSeries, matchingForecasts,
      effectiveProjectionDays]
  rw [h1]
  exact ⟨by simp [timeline_length], by simp⟩

/-- Claim C5 (amended): the engine returns an empty output exactly when no
inventory *series* match the request; a matching series always yields a
projection of full length `projectionDays + 1` (`projection_days || 90`),
regardless of whether any observations or forecasts exist for it. -/
theorem claim_C5_empty_series (allSeries : List InventorySeries)
    (allInventoryData : List InventorySeriesData)
    (allForecasts : List ForecastData) (pProduct pLocation : Option String)
    (pDays : Option ℕ) (today : ℤ) :
    (calculateProjections allSeries allInventoryData allForecasts pProduct
        pLocation pDays today = [] ↔
      matchingSeries allSeries pProduct pLocation = []) ∧
    (∀ r ∈ calculateProjections allSeries allInventoryData allForecasts
        pProduct pLocation pDays today,
      r.projections.length = effectiveProjectionDays pDays + 1) := by
  constructor
  · unfold calculateProjections
    by_cases hse : (matchingSeries allSeries pProduct pLocation).isEmpty
    · rw [if_pos hse]
      simp only [true_iff, List.isEmpty_iff.mp hse]
    · rw [if_neg hse]
      simp
  · intro r hr
    unfold calculateProjections at hr
    by_cases hse : (matchingSeries allSeries pProduct pLocation).isEmpty
    · rw [if_pos hse] at hr
      cases hr
    · rw [if_neg hse] at hr
      obtain ⟨series, -, rfl⟩ := List.mem_map.mp hr
      exact timeline_length _ _ _ _

/-- Claim C5 witness: the empty-request direction of the amended claim at a
concrete input. -/
theorem claim_C5_witness :
    calculateProjections [] [] [] none none (some 3) 0 = [] :=
  (claim_C5_empty_series [] [] [] none none (some 3) 0).1.mpr rfl

end InventoryProjectionService

end DemoLegacy
